import Mathlib

/-!
Shallow embedding of `src/braille.rs` (drawille-rs): a terminal canvas of
Braille cells. The Rust code stores `chars : Vec<int>`, `width : uint`,
`height : uint`. Machine `uint` coordinates become `Nat`; the signed `int`
cell masks become `Int` (the bitwise operations `|`, `&`, `^` on `i64`
agree with the mathematical `Int.lor`, `Int.land`, `Int.xor` since they
never overflow). Operations that can fail at runtime (index out of range
from `Vec::get_mut` / `Vec` indexing, remainder by zero in `fmt`) return
`Except Err`.
-/

namespace Drawille

/-- Runtime failure conditions of the Rust code: a task failure from an
out-of-range vector index, or from a remainder by zero. -/
inductive Err where
  | outOfRange
  | divideByZero
deriving DecidableEq

/-- The static 4x2 pixel lookup table `PIXEL_MAP` from the source. -/
def PIXEL_MAP : List (List Int) :=
  [[0x01, 0x08],
   [0x02, 0x10],
   [0x04, 0x20],
   [0x40, 0x80]]

/-- `PIXEL_MAP[y % 4][x % 2]`: the array indices `y % 4 < 4` and `x % 2 < 2`
are always in bounds, so the `getD` defaults are never used. -/
def pixelBit (x y : Nat) : Int :=
  (PIXEL_MAP.getD (y % 4) []).getD (x % 2) 0

/-- The `Canvas` struct: `chars` is the flat cell-mask vector, `width` and
`height` are the cell (not pixel) dimensions. -/
structure Canvas where
  chars : List Int
  width : Nat
  height : Nat
deriving DecidableEq

/-- `Canvas::new(width, height)`: empty mask vector, cell dimensions
`width / 2` by `height / 4`. -/
def Canvas.new (width height : Nat) : Canvas :=
  { chars := [], width := width / 2, height := height / 4 }

/-- `Canvas::clear`: `self.chars.clear()`. -/
def Canvas.clear (c : Canvas) : Canvas :=
  { c with chars := [] }

/-- `Canvas::set`: `*self.chars.get_mut(index) |= PIXEL_MAP[y % 4][x % 2]`;
`Vec::get_mut` fails when `index` is out of range. -/
def Canvas.set (c : Canvas) (x y : Nat) : Except Err Canvas :=
  let row := x / 2
  let col := y / 4
  let index := row * c.width + col
  match c.chars[index]? with
  | none => Except.error Err.outOfRange
  | some v =>
      Except.ok { c with chars := c.chars.set index (Int.lor v (pixelBit x y)) }

/-- `Canvas::unset`: `*self.chars.get_mut(index) &= PIXEL_MAP[y % 4][x % 2]`
(the source really ANDs with the positive mask, not with its complement). -/
def Canvas.unset (c : Canvas) (x y : Nat) : Except Err Canvas :=
  let row := x / 2
  let col := y / 4
  let index := row * c.width + col
  match c.chars[index]? with
  | none => Except.error Err.outOfRange
  | some v =>
      Except.ok { c with chars := c.chars.set index (Int.land v (pixelBit x y)) }

/-- `Canvas::toggle`: `*self.chars.get_mut(index) ^= PIXEL_MAP[y % 4][x % 2]`. -/
def Canvas.toggle (c : Canvas) (x y : Nat) : Except Err Canvas :=
  let row := x / 2
  let col := y / 4
  let index := row * c.width + col
  match c.chars[index]? with
  | none => Except.error Err.outOfRange
  | some v =>
      Except.ok { c with chars := c.chars.set index (Int.xor v (pixelBit x y)) }

/-- `Canvas::get`: reads `self.chars[index]` (failing when out of range) and
returns whether `c & dot_index != 0`. -/
def Canvas.get (c : Canvas) (x y : Nat) : Except Err Bool :=
  let dot_index := pixelBit x y
  let row := x / 2
  let col := y / 4
  let index := row * c.width + col
  match c.chars[index]? with
  | none => Except.error Err.outOfRange
  | some v => Except.ok (decide (Int.land v dot_index ≠ 0))

/-- The loop body of `impl Show for Canvas`: for each cell at enumeration
index `i`, test `i % self.width == 0` (failing with a remainder by zero when
`width = 0`), write a newline when it holds, then write the mask `{}` as a
decimal integer. -/
def fmtAux (width : Nat) : Nat → List Int → Except Err String
  | _, [] => Except.ok ""
  | i, v :: rest =>
    if width = 0 then Except.error Err.divideByZero
    else
      match fmtAux width (i + 1) rest with
      | Except.error e => Except.error e
      | Except.ok s =>
          Except.ok ((if i % width = 0 then "\n" else "") ++ toString v ++ s)

/-- `Show::fmt` for `Canvas`: iterate `chars` with enumeration starting at 0. -/
def Canvas.fmt (c : Canvas) : Except Err String :=
  fmtAux c.width 0 c.chars

/-- Canvas states reachable from `Canvas::new` by the public mutating
operations (a successful `set`, `unset` or `toggle`; `clear` always
succeeds; `get` and `fmt` do not mutate). -/
inductive Reachable : Canvas → Prop where
  | new (w h : Nat) : Reachable (Canvas.new w h)
  | clear {c : Canvas} : Reachable c → Reachable c.clear
  | set {c c' : Canvas} {x y : Nat} :
      Reachable c → c.set x y = Except.ok c' → Reachable c'
  | unset {c c' : Canvas} {x y : Nat} :
      Reachable c → c.unset x y = Except.ok c' → Reachable c'
  | toggle {c c' : Canvas} {x y : Nat} :
      Reachable c → c.toggle x y = Except.ok c' → Reachable c'

/-! ### Helper lemmas -/

theorem xor_xor_cancel (a b : Int) : Int.xor (Int.xor a b) b = a := by
  cases a <;> cases b <;> simp only [Int.xor] <;>
    rw [Nat.xor_assoc, Nat.xor_self, Nat.xor_zero] <;> try rfl

theorem testBit_zero_int (k : Nat) : Int.testBit 0 k = false := by
  show Nat.testBit 0 k = false
  exact Nat.zero_testBit k

theorem land_lor_ne_zero (a b : Int) (k : Nat) (h : Int.testBit b k = true) :
    Int.land (Int.lor a b) b ≠ 0 := by
  intro h0
  have ht := Int.testBit_land (Int.lor a b) b k
  rw [h0, Int.testBit_lor, h, testBit_zero_int] at ht
  simp at ht

theorem exists_testBit_pixelBit (x y : Nat) :
    ∃ k, Int.testBit (pixelBit x y) k = true := by
  have hx : x % 2 = 0 ∨ x % 2 = 1 := by omega
  have hy : y % 4 = 0 ∨ y % 4 = 1 ∨ y % 4 = 2 ∨ y % 4 = 3 := by omega
  rcases hx with h1 | h1 <;> rcases hy with h2 | h2 | h2 | h2 <;>
    simp only [pixelBit, PIXEL_MAP, h1, h2, List.getD] <;>
    first
      | exact ⟨0, by decide⟩
      | exact ⟨1, by decide⟩
      | exact ⟨2, by decide⟩
      | exact ⟨3, by decide⟩
      | exact ⟨4, by decide⟩
      | exact ⟨5, by decide⟩
      | exact ⟨6, by decide⟩
      | exact ⟨7, by decide⟩

/-- Characterization of a successful `set`. -/
theorem set_ok {c c' : Canvas} {x y : Nat} (h : c.set x y = Except.ok c') :
    ∃ v, c.chars[x / 2 * c.width + y / 4]? = some v ∧
      c' = { c with
             chars := c.chars.set (x / 2 * c.width + y / 4)
               (Int.lor v (pixelBit x y)) } := by
  unfold Canvas.set at h
  simp only [] at h
  cases hv : c.chars[x / 2 * c.width + y / 4]? with
  | none => rw [hv] at h; exact absurd h (by simp)
  | some v =>
      rw [hv] at h
      simp only [Except.ok.injEq] at h
      exact ⟨v, rfl, h.symm⟩

/-- Characterization of a successful `unset`. -/
theorem unset_ok {c c' : Canvas} {x y : Nat} (h : c.unset x y = Except.ok c') :
    ∃ v, c.chars[x / 2 * c.width + y / 4]? = some v ∧
      c' = { c with
             chars := c.chars.set (x / 2 * c.width + y / 4)
               (Int.land v (pixelBit x y)) } := by
  unfold Canvas.unset at h
  simp only [] at h
  cases hv : c.chars[x / 2 * c.width + y / 4]? with
  | none => rw [hv] at h; exact absurd h (by simp)
  | some v =>
      rw [hv] at h
      simp only [Except.ok.injEq] at h
      exact ⟨v, rfl, h.symm⟩

/-- Characterization of a successful `toggle`. -/
theorem toggle_ok {c c' : Canvas} {x y : Nat} (h : c.toggle x y = Except.ok c') :
    ∃ v, c.chars[x / 2 * c.width + y / 4]? = some v ∧
      c' = { c with
             chars := c.chars.set (x / 2 * c.width + y / 4)
               (Int.xor v (pixelBit x y)) } := by
  unfold Canvas.toggle at h
  simp only [] at h
  cases hv : c.chars[x / 2 * c.width + y / 4]? with
  | none => rw [hv] at h; exact absurd h (by simp)
  | some v =>
      rw [hv] at h
      simp only [Except.ok.injEq] at h
      exact ⟨v, rfl, h.symm⟩

/-- `get` unfolded to the cell lookup it performs. -/
theorem get_eq (c : Canvas) (x y : Nat) :
    c.get x y =
      match c.chars[x / 2 * c.width + y / 4]? with
      | none => Except.error Err.outOfRange
      | some v => Except.ok (decide (Int.land v (pixelBit x y) ≠ 0)) := rfl

/-- On a canvas whose cell vector is empty, every pixel operation fails with
the out-of-range error. -/
theorem op_on_nil {c : Canvas} (h : c.chars = []) (x y : Nat) :
    c.set x y = Except.error Err.outOfRange ∧
    c.unset x y = Except.error Err.outOfRange ∧
    c.toggle x y = Except.error Err.outOfRange ∧
    c.get x y = Except.error Err.outOfRange := by
  unfold Canvas.set Canvas.unset Canvas.toggle Canvas.get
  simp [h]

/-- No public operation ever allocates a cell: every reachable canvas still
has the empty cell vector created by `new`. -/
theorem reachable_chars_nil {c : Canvas} (h : Reachable c) : c.chars = [] := by
  induction h with
  | new w hh => rfl
  | clear hr ih => rfl
  | set hr he ih => rw [(op_on_nil ih _ _).1] at he; exact absurd he (by simp)
  | unset hr he ih => rw [(op_on_nil ih _ _).2.1] at he; exact absurd he (by simp)
  | toggle hr he ih => rw [(op_on_nil ih _ _).2.2.1] at he; exact absurd he (by simp)

/-! ### Claim theorems -/

/-- C1: the claim says `unset(x, y)` clears only the targeted bit and that
`set` then `unset` makes `get` false while preserving the other bits of the
cell. The code ANDs with the positive mask (`&=` without complement), so on
the cell `0x08` (pixel (1,0) set), `set(0,0)` yields `0x09`, `unset(0,0)`
yields `0x09 & 0x01 = 0x01`: afterwards `get(0,0)` is still true and the
neighboring pixel (1,0) has been erased — the opposite on both counts. -/
theorem c1_unset_keeps_target_and_clears_neighbor :
    Canvas.set { chars := [0x08], width := 2, height := 1 } 0 0 =
      Except.ok { chars := [0x09], width := 2, height := 1 } ∧
    Canvas.get { chars := [0x09], width := 2, height := 1 } 1 0 =
      Except.ok true ∧
    Canvas.unset { chars := [0x09], width := 2, height := 1 } 0 0 =
      Except.ok { chars := [0x01], width := 2, height := 1 } ∧
    Canvas.get { chars := [0x01], width := 2, height := 1 } 0 0 =
      Except.ok true ∧
    Canvas.get { chars := [0x01], width := 2, height := 1 } 1 0 =
      Except.ok false :=
  ⟨rfl, rfl, rfl, rfl, rfl⟩

/-- C2: the claim says `set` grows the cell vector with zero-filled cells on
an out-of-range index and never fails. The code calls `Vec::get_mut`, which
fails on an out-of-range index, and nothing ever extends the vector: on a
fresh `Canvas::new(4, 4)` (empty vector) `set(0, 0)` already fails. -/
theorem c2_set_fails_instead_of_growing :
    (Canvas.new 4 4).chars = [] ∧
    (Canvas.new 4 4).set 0 0 = Except.error Err.outOfRange :=
  ⟨rfl, rfl⟩

/-- C3: in every state reachable from `new` by the public operations the
cell vector is empty: `new` creates it empty, `clear` empties it, and the
mutating pixel operations fail rather than allocate; consequently every
`set`, `unset`, `toggle` and `get` on a reachable canvas fails with the
out-of-range error, and rendering a reachable canvas yields the empty
string. -/
theorem c3_reachable_state_empty (c : Canvas) (h : Reachable c) :
    c.chars = [] ∧
    (∀ x y, c.set x y = Except.error Err.outOfRange) ∧
    (∀ x y, c.unset x y = Except.error Err.outOfRange) ∧
    (∀ x y, c.toggle x y = Except.error Err.outOfRange) ∧
    (∀ x y, c.get x y = Except.error Err.outOfRange) ∧
    c.fmt = Except.ok "" := by
  have hnil : c.chars = [] := reachable_chars_nil h
  refine ⟨hnil, fun x y => (op_on_nil hnil x y).1,
    fun x y => (op_on_nil hnil x y).2.1,
    fun x y => (op_on_nil hnil x y).2.2.1,
    fun x y => (op_on_nil hnil x y).2.2.2, ?_⟩
  unfold Canvas.fmt
  rw [hnil]
  rfl

/-- Witness for C3 at the concrete reachable canvas `Canvas.new 4 4`. -/
theorem c3_witness :
    (Canvas.new 4 4).chars = [] ∧
    (Canvas.new 4 4).set 1 2 = Except.error Err.outOfRange ∧
    (Canvas.new 4 4).get 0 0 = Except.error Err.outOfRange ∧
    (Canvas.new 4 4).fmt = Except.ok "" :=
  ⟨(c3_reachable_state_empty (Canvas.new 4 4) (Reachable.new 4 4)).1,
   (c3_reachable_state_empty (Canvas.new 4 4) (Reachable.new 4 4)).2.1 1 2,
   (c3_reachable_state_empty (Canvas.new 4 4) (Reachable.new 4 4)).2.2.2.2.1 0 0,
   (c3_reachable_state_empty (Canvas.new 4 4) (Reachable.new 4 4)).2.2.2.2.2⟩

/-- C4 counterexample: the claim ends with a scenario on "a canvas built
with width 4 and height 4", asserting the two sets produce mask 0x09
there; on the canvas that `new(4, 4)` actually builds the cell vector is
empty, so `set(0, 0)` fails out-of-range and produces no mask at all. -/
theorem c4_counterexample :
    (Canvas.new 4 4).width = 2 ∧
    (Canvas.new 4 4).set 0 0 = Except.error Err.outOfRange ∧
    (Canvas.new 4 4).set 1 0 = Except.error Err.outOfRange :=
  ⟨rfl, rfl, rfl⟩

/-- C4 (amended): the pixel operations address the flat cell index
`(x / 2) * cell_width + (y / 4)` and the bit chosen by `PIXEL_MAP` at
`(y mod 4, x mod 2)`, whose eight entries are exactly 0x01, 0x02, 0x04,
0x40 (column 0, rows 0 to 3) and 0x08, 0x10, 0x20, 0x80 (column 1):
a successful `set` touches only that flat index, where it ORs in that bit;
and on a canvas with `cell_width = 2` (the width-4 height-4 configuration)
whose cell 0 is allocated and zero, `set(0,0)` produces mask 0x01, then
`set(1,0)` produces 0x09 in the same cell, with `get(0,0)` and `get(1,0)`
true and `get(0,1)` false. -/
theorem c4_addressing_and_pixel_map :
    (∀ (c c' : Canvas) (x y : Nat), c.set x y = Except.ok c' →
      c'.width = c.width ∧ c'.chars.length = c.chars.length ∧
      (∀ j, j ≠ x / 2 * c.width + y / 4 → c'.chars[j]? = c.chars[j]?) ∧
      ∀ v, c.chars[x / 2 * c.width + y / 4]? = some v →
        c'.chars[x / 2 * c.width + y / 4]? =
          some (Int.lor v (pixelBit x y))) ∧
    (pixelBit 0 0 = 0x01 ∧ pixelBit 0 1 = 0x02 ∧ pixelBit 0 2 = 0x04 ∧
      pixelBit 0 3 = 0x40 ∧ pixelBit 1 0 = 0x08 ∧ pixelBit 1 1 = 0x10 ∧
      pixelBit 1 2 = 0x20 ∧ pixelBit 1 3 = 0x80) ∧
    ((Canvas.new 4 4).width = 2 ∧ (Canvas.new 4 4).height = 1 ∧
      Canvas.set { chars := [0], width := 2, height := 1 } 0 0 =
        Except.ok { chars := [0x01], width := 2, height := 1 } ∧
      Canvas.set { chars := [0x01], width := 2, height := 1 } 1 0 =
        Except.ok { chars := [0x09], width := 2, height := 1 } ∧
      Canvas.get { chars := [0x09], width := 2, height := 1 } 0 0 =
        Except.ok true ∧
      Canvas.get { chars := [0x09], width := 2, height := 1 } 1 0 =
        Except.ok true ∧
      Canvas.get { chars := [0x09], width := 2, height := 1 } 0 1 =
        Except.ok false) := by
  refine ⟨?_, ⟨rfl, rfl, rfl, rfl, rfl, rfl, rfl, rfl⟩,
    rfl, rfl, rfl, rfl, rfl, rfl, rfl⟩
  intro c c' x y h
  obtain ⟨v, hv, rfl⟩ := set_ok h
  have hlt : x / 2 * c.width + y / 4 < c.chars.length :=
    (List.getElem?_eq_some_iff.mp hv).1
  refine ⟨rfl, by simp, ?_, ?_⟩
  · intro j hj
    exact List.getElem?_set_ne (Ne.symm hj)
  · intro w hw
    have hvw : v = w := by rw [hv] at hw; injection hw
    subst hvw
    exact List.getElem?_set_self hlt

/-- C5: whenever the addressed flat index is allocated, `set(x, y)` succeeds
and a subsequent `get(x, y)` returns true, whatever the prior contents of
the cell: the cell now contains `old | bit`, and `(old | bit) & bit` is
never zero. -/
theorem c5_get_after_set (c c' : Canvas) (x y : Nat)
    (h : c.set x y = Except.ok c') : c'.get x y = Except.ok true := by
  obtain ⟨v, hv, rfl⟩ := set_ok h
  have hlt : x / 2 * c.width + y / 4 < c.chars.length :=
    (List.getElem?_eq_some_iff.mp hv).1
  rw [get_eq]
  have hcell : ({ c with
      chars := c.chars.set (x / 2 * c.width + y / 4)
        (Int.lor v (pixelBit x y)) } : Canvas).chars[x / 2 * c.width + y / 4]?
      = some (Int.lor v (pixelBit x y)) :=
    List.getElem?_set_self hlt
  rw [show ({ c with
      chars := c.chars.set (x / 2 * c.width + y / 4)
        (Int.lor v (pixelBit x y)) } : Canvas).width = c.width from rfl, hcell]
  obtain ⟨k, hk⟩ := exists_testBit_pixelBit x y
  simp [land_lor_ne_zero v (pixelBit x y) k hk]

/-- Witness for C5: on the single-cell canvas `[0]` with cell width 2,
`set(0,0)` succeeds and `get(0,0)` then returns true. -/
theorem c5_witness :
    Canvas.set { chars := [0], width := 2, height := 1 } 0 0 =
      Except.ok { chars := [1], width := 2, height := 1 } ∧
    Canvas.get { chars := [1], width := 2, height := 1 } 0 0 =
      Except.ok true :=
  ⟨rfl, c5_get_after_set { chars := [0], width := 2, height := 1 }
    { chars := [1], width := 2, height := 1 } 0 0 rfl⟩

/-- C6: when the addressed flat index is allocated, toggling the same pixel
twice restores the value `get` reports there: the cell goes from `v` to
`(v ^ bit) ^ bit = v`. -/
theorem c6_toggle_involution (c c' c'' : Canvas) (x y : Nat)
    (h1 : c.toggle x y = Except.ok c') (h2 : c'.toggle x y = Except.ok c'') :
    c''.get x y = c.get x y := by
  obtain ⟨v, hv, rfl⟩ := toggle_ok h1
  have hlt : x / 2 * c.width + y / 4 < c.chars.length :=
    (List.getElem?_eq_some_iff.mp hv).1
  obtain ⟨w, hw, rfl⟩ := toggle_ok h2
  have hw' : (c.chars.set (x / 2 * c.width + y / 4)
      (Int.xor v (pixelBit x y)))[x / 2 * c.width + y / 4]? =
      some (Int.xor v (pixelBit x y)) := List.getElem?_set_self hlt
  have hvw : w = Int.xor v (pixelBit x y) := by
    rw [show ({ c with
        chars := c.chars.set (x / 2 * c.width + y / 4)
          (Int.xor v (pixelBit x y)) } : Canvas).chars[x / 2 *
            ({ c with
              chars := c.chars.set (x / 2 * c.width + y / 4)
                (Int.xor v (pixelBit x y)) } : Canvas).width + y / 4]? =
        (c.chars.set (x / 2 * c.width + y / 4)
          (Int.xor v (pixelBit x y)))[x / 2 * c.width + y / 4]? from rfl,
      hw'] at hw
    injection hw with hw
    exact hw.symm
  subst hvw
  rw [get_eq, get_eq]
  have hlt2 : x / 2 * c.width + y / 4 <
      (c.chars.set (x / 2 * c.width + y / 4)
        (Int.xor v (pixelBit x y))).length := by
    simpa using hlt
  have hcell : ((c.chars.set (x / 2 * c.width + y / 4)
      (Int.xor v (pixelBit x y))).set (x / 2 * c.width + y / 4)
        (Int.xor (Int.xor v (pixelBit x y))
          (pixelBit x y)))[x / 2 * c.width + y / 4]? =
      some (Int.xor (Int.xor v (pixelBit x y)) (pixelBit x y)) :=
    List.getElem?_set_self hlt2
  rw [show (((c.chars.set (x / 2 * c.width + y / 4)
      (Int.xor v (pixelBit x y))).set (x / 2 * c.width + y / 4)
        (Int.xor (Int.xor v (pixelBit x y)) (pixelBit x y))) :
          List Int)[x / 2 * c.width + y / 4]? =
      some (Int.xor (Int.xor v (pixelBit x y)) (pixelBit x y)) from hcell,
    hv, xor_xor_cancel]

/-- Witness for C6: on the single-cell canvas `[5]` with cell width 2, two
toggles of pixel (0,0) succeed and `get(0,0)` ends where it started. -/
theorem c6_witness :
    Canvas.toggle { chars := [5], width := 2, height := 1 } 0 0 =
      Except.ok { chars := [4], width := 2, height := 1 } ∧
    Canvas.toggle { chars := [4], width := 2, height := 1 } 0 0 =
      Except.ok { chars := [5], width := 2, height := 1 } ∧
    Canvas.get { chars := [5], width := 2, height := 1 } 0 0 =
      Canvas.get { chars := [5], width := 2, height := 1 } 0 0 :=
  ⟨rfl, rfl, c6_toggle_involution { chars := [5], width := 2, height := 1 }
    { chars := [4], width := 2, height := 1 }
    { chars := [5], width := 2, height := 1 } 0 0 rfl rfl⟩

/-- C7: `get(x, y)` fails with the out-of-range error exactly when the flat
index `(x / 2) * cell_width + (y / 4)` is at or beyond the length of the
cell vector (otherwise it returns a Boolean, never silently treating an
out-of-range index as an unset pixel), and on a freshly constructed canvas
it fails for every coordinate. -/
theorem c7_get_error_iff_out_of_range :
    (∀ (c : Canvas) (x y : Nat),
      c.get x y = Except.error Err.outOfRange ↔
        c.chars.length ≤ x / 2 * c.width + y / 4) ∧
    (∀ (w h x y : Nat),
      (Canvas.new w h).get x y = Except.error Err.outOfRange) := by
  constructor
  · intro c x y
    rw [get_eq]
    cases hv : c.chars[x / 2 * c.width + y / 4]? with
    | none => simp [List.getElem?_eq_none_iff.mp hv]
    | some v =>
        have hlt := (List.getElem?_eq_some_iff.mp hv).1
        simp only [ne_eq]
        constructor
        · intro hc; exact absurd hc (by simp)
        · intro hc; omega
  · intro w h x y
    exact (op_on_nil (rfl : (Canvas.new w h).chars = []) x y).2.2.2

/-- C8: `clear()` empties the cell vector, retains the cell width and
height, and afterwards `get` never returns true for any coordinate (here it
always fails with the out-of-range error, since the vector is empty). -/
theorem c8_clear_resets_storage (c : Canvas) :
    c.clear.width = c.width ∧ c.clear.height = c.height ∧
    c.clear.chars = [] ∧
    (∀ x y, c.clear.get x y = Except.error Err.outOfRange) ∧
    ∀ x y, c.clear.get x y ≠ Except.ok true := by
  refine ⟨rfl, rfl, rfl,
    fun x y => (op_on_nil (rfl : c.clear.chars = []) x y).2.2.2,
    fun x y => ?_⟩
  rw [(op_on_nil (rfl : c.clear.chars = []) x y).2.2.2]
  simp

/-- When the cell width is nonzero, the rendering loop never fails. -/
theorem fmtAux_ok (w : Nat) (hw : w ≠ 0) (i : Nat) (l : List Int) :
    ∃ s, fmtAux w i l = Except.ok s := by
  induction l generalizing i with
  | nil => exact ⟨"", rfl⟩
  | cons v rest ih =>
      obtain ⟨s, hs⟩ := ih (i + 1)
      refine ⟨(if i % w = 0 then "\n" else "") ++ toString v ++ s, ?_⟩
      unfold fmtAux
      rw [if_neg hw, hs]

/-- C9: rendering walks the cells in index order, emits a newline before
every cell whose enumeration index is a multiple of the cell width
(including index 0, so non-empty output starts with a newline), and prints
each mask as its raw decimal integer; concretely, cell width 2 with cells
`[1, 2, 3]` renders as the string `"\n12\n3"`. -/
theorem c9_fmt_layout :
    (∀ (w i : Nat) (v : Int) (rest : List Int), w ≠ 0 →
      ∃ s, fmtAux w (i + 1) rest = Except.ok s ∧
        fmtAux w i (v :: rest) =
          Except.ok ((if i % w = 0 then "\n" else "") ++ toString v ++ s)) ∧
    Canvas.fmt { chars := [1, 2, 3], width := 2, height := 1 } =
      Except.ok "\n12\n3" := by
  constructor
  · intro w i v rest hw
    obtain ⟨s, hs⟩ := fmtAux_ok w hw (i + 1) rest
    refine ⟨s, hs, ?_⟩
    unfold fmtAux
    rw [if_neg hw, hs]
  · rfl

/-- C10 counterexample: the claim says a canvas constructed with zero width
or height makes every subsequent pixel operation divide by zero. On
`Canvas::new(0, 0)` all four pixel operations instead fail with the
out-of-range vector index error — no division by the stored dimensions
occurs in them (their divisors are the constants 2 and 4). -/
theorem c10_counterexample :
    (Canvas.new 0 0).set 0 0 = Except.error Err.outOfRange ∧
    (Canvas.new 0 0).unset 0 0 = Except.error Err.outOfRange ∧
    (Canvas.new 0 0).toggle 0 0 = Except.error Err.outOfRange ∧
    (Canvas.new 0 0).get 0 0 = Except.error Err.outOfRange ∧
    Err.outOfRange ≠ Err.divideByZero :=
  ⟨rfl, rfl, rfl, rfl, by decide⟩

/-- C10 amended: pixel operations never raise the divide-by-zero condition
(they divide only by the constants 2 and 4); the divide-by-zero fatal
condition arises instead in rendering, which computes `i % cell_width` and
fails exactly when the cell width is zero and at least one cell is stored,
and it is not caught internally. -/
theorem c10_div_by_zero_only_in_fmt :
    (∀ (c : Canvas) (x y : Nat),
      c.set x y ≠ Except.error Err.divideByZero ∧
      c.unset x y ≠ Except.error Err.divideByZero ∧
      c.toggle x y ≠ Except.error Err.divideByZero ∧
      c.get x y ≠ Except.error Err.divideByZero) ∧
    (∀ (v : Int) (rest : List Int) (hgt : Nat),
      Canvas.fmt { chars := v :: rest, width := 0, height := hgt } =
        Except.error Err.divideByZero) ∧
    ∀ (hgt : Nat),
      Canvas.fmt { chars := [], width := 0, height := hgt } =
        Except.ok "" := by
  refine ⟨?_, fun v rest hgt => rfl, fun hgt => rfl⟩
  intro c x y
  refine ⟨?_, ?_, ?_, ?_⟩
  · unfold Canvas.set
    simp only []
    cases c.chars[x / 2 * c.width + y / 4]? <;> simp
  · unfold Canvas.unset
    simp only []
    cases c.chars[x / 2 * c.width + y / 4]? <;> simp
  · unfold Canvas.toggle
    simp only []
    cases c.chars[x / 2 * c.width + y / 4]? <;> simp
  · unfold Canvas.get
    simp only []
    cases c.chars[x / 2 * c.width + y / 4]? <;> simp

end Drawille
